import Mathlib

/-
Verification of the candlestick pattern-detection engine
(src/detectors/candlestick_detector.py and src/data_structures.py).

Prices are modelled as rationals; Python booleans become `Bool`; the
in-place loop of `detect_patterns` becomes a left fold over the index
range that rewrites one list position per step.
-/

/-- A single candlestick with OHLC data (class `Candle` in
`src/data_structures.py`; `open` is a Lean keyword, hence `open_`). -/
structure Candle where
  index : Int
  open_ : ℚ
  high : ℚ
  low : ℚ
  close : ℚ
  pattern : Option String
deriving DecidableEq

/-- A candle is bullish if the close is higher than the open. -/
def Candle.is_bullish (c : Candle) : Bool := decide (c.close > c.open_)

/-- A candle is bearish if the close is lower than the open. -/
def Candle.is_bearish (c : Candle) : Bool := decide (c.close < c.open_)

/-- The size of the candle's body. -/
def Candle.body_size (c : Candle) : ℚ := abs (c.open_ - c.close)

/-- The size of the upper wick. -/
def Candle.upper_wick_size (c : Candle) : ℚ := c.high - max c.open_ c.close

/-- The size of the lower wick. -/
def Candle.lower_wick_size (c : Candle) : ℚ := min c.open_ c.close - c.low

/-- Doji rule: body below 5% of the range, and the range above 1% of the
open price; a zero range never matches. -/
def _is_doji (candle : Candle) : Bool :=
  let total_range := candle.high - candle.low
  if total_range = 0 then false
  else
    let is_doji_shape := decide (candle.body_size / total_range < 0.05)
    let is_significant := decide (total_range > candle.open_ * 0.01)
    is_doji_shape && is_significant

/-- Hammer rule: needs 3 previous candles, at least 2 of the last 3
bearish, a long lower wick, a short upper wick and a nonzero body. -/
def _is_hammer (candle : Candle) (prev_candles : List Candle) : Bool :=
  if prev_candles.length < 3 then false
  else
    let bearish_count :=
      (prev_candles.drop (prev_candles.length - 3)).countP
        (fun c => c.is_bearish)
    if bearish_count < 2 then false
    else
      let long_lower_wick :=
        decide (candle.lower_wick_size ≥ candle.body_size * 2)
      let short_upper_wick :=
        decide (candle.upper_wick_size < candle.body_size)
      long_lower_wick && short_upper_wick && decide (candle.body_size > 0)

/-- Bullish engulfing rule. -/
def _is_bullish_engulfing (current : Candle) (prev : Candle) : Bool :=
  if !(prev.is_bearish && current.is_bullish) then false
  else
    let engulfs :=
      decide (current.open_ < prev.open_) && decide (current.close > prev.close)
    let is_significant := decide (current.body_size > prev.body_size * 1.2)
    engulfs && is_significant

/-- Bearish engulfing rule. -/
def _is_bearish_engulfing (current : Candle) (prev : Candle) : Bool :=
  if !(prev.is_bullish && current.is_bearish) then false
  else
    let engulfs :=
      decide (current.open_ > prev.open_) && decide (current.close < prev.close)
    let is_significant := decide (current.body_size > prev.body_size * 1.2)
    engulfs && is_significant

/-- Marubozu rule: body over 95% of the range; a zero range never
matches. -/
def _is_marubozu (candle : Candle) : Bool :=
  let total_range := candle.high - candle.low
  if total_range = 0 then false
  else decide (candle.body_size / total_range > 0.95)

/-- Tweezer top rule: rejects a bearish previous candle, then compares
the two highs within a tolerance. -/
def _is_tweezer_top (current : Candle) (prev : Candle) : Bool :=
  if prev.is_bearish then false
  else
    let tolerance := prev.high * 0.001
    decide (abs (prev.high - current.high) < tolerance)

/-- Tweezer bottom rule: rejects a bullish previous candle, then compares
the two lows within a tolerance. -/
def _is_tweezer_bottom (current : Candle) (prev : Candle) : Bool :=
  if prev.is_bullish then false
  else
    let tolerance := prev.low * 0.001
    decide (abs (prev.low - current.low) < tolerance)

/-- Morning star rule over three candles. -/
def _is_morning_star (c1 c2 c3 : Candle) : Bool :=
  if !(c1.is_bearish && c3.is_bullish) then false
  else
    let is_c1_long := decide (c1.body_size > c1.open_ * 0.015)
    let is_c2_small := decide (c2.body_size < c1.body_size * 0.3)
    let gapped_down := decide (c2.high < c1.low)
    let closes_in_c1 := decide (c3.close > (c1.open_ + c1.close) / 2)
    is_c1_long && is_c2_small && gapped_down && closes_in_c1

/-- Evening star rule over three candles. -/
def _is_evening_star (c1 c2 c3 : Candle) : Bool :=
  if !(c1.is_bullish && c3.is_bearish) then false
  else
    let is_c1_long := decide (c1.body_size > c1.open_ * 0.015)
    let is_c2_small := decide (c2.body_size < c1.body_size * 0.3)
    let gapped_up := decide (c2.low > c1.high)
    let closes_in_c1 := decide (c3.close < (c1.open_ + c1.close) / 2)
    is_c1_long && is_c2_small && gapped_up && closes_in_c1

/-- Three white soldiers rule over three candles. -/
def _is_three_white_soldiers (c1 c2 c3 : Candle) : Bool :=
  if !(c1.is_bullish && c2.is_bullish && c3.is_bullish) then false
  else
    let is_c1_long := decide (c1.body_size > c1.open_ * 0.01)
    let is_c2_long := decide (c2.body_size > c2.open_ * 0.01)
    let is_c3_long := decide (c3.body_size > c3.open_ * 0.01)
    if !(is_c1_long && is_c2_long && is_c3_long) then false
    else
      let opens_in_body_2 :=
        decide (c1.close > c2.open_) && decide (c2.open_ > c1.open_)
      let closes_higher_2 := decide (c2.close > c1.close)
      let opens_in_body_3 :=
        decide (c2.close > c3.open_) && decide (c3.open_ > c2.open_)
      let closes_higher_3 := decide (c3.close > c2.close)
      opens_in_body_2 && closes_higher_2 && opens_in_body_3 && closes_higher_3

/-- Three black crows rule over three candles. -/
def _is_three_black_crows (c1 c2 c3 : Candle) : Bool :=
  if !(c1.is_bearish && c2.is_bearish && c3.is_bearish) then false
  else
    let is_c1_long := decide (c1.body_size > c1.open_ * 0.01)
    let is_c2_long := decide (c2.body_size > c2.open_ * 0.01)
    let is_c3_long := decide (c3.body_size > c3.open_ * 0.01)
    if !(is_c1_long && is_c2_long && is_c3_long) then false
    else
      let opens_in_body_2 :=
        decide (c1.open_ > c2.open_) && decide (c2.open_ > c1.close)
      let closes_lower_2 := decide (c2.close < c1.close)
      let opens_in_body_3 :=
        decide (c2.open_ > c3.open_) && decide (c3.open_ > c2.close)
      let closes_lower_3 := decide (c3.close < c2.close)
      opens_in_body_2 && closes_lower_2 && opens_in_body_3 && closes_lower_3

/-- The if/elif cascade of one loop iteration of `detect_patterns`:
`p` is `candles[i-3]`, `a` is `candles[i-2]`, `b` is `candles[i-1]`
(the previous candle) and `c` is `candles[i]` (the current candle);
the hammer rule receives the slice `candles[i-3:i]`. -/
def classifyWindow (p a b c : Candle) : Option String :=
  if _is_morning_star a b c then some "Morning Star"
  else if _is_evening_star a b c then some "Evening Star"
  else if _is_three_white_soldiers a b c then some "Three White Soldiers"
  else if _is_three_black_crows a b c then some "Three Black Crows"
  else if _is_marubozu c then some "Marubozu"
  else if _is_bullish_engulfing c b then some "Bullish Engulfing"
  else if _is_bearish_engulfing c b then some "Bearish Engulfing"
  else if _is_tweezer_top c b then some "Tweezer Top"
  else if _is_tweezer_bottom c b then some "Tweezer Bottom"
  else if _is_doji c then some "Doji"
  else if _is_hammer c [p, a, b] then some "Hammer"
  else none

/-- The reset step `c.pattern = None` of `detect_patterns`. -/
def resetPattern (c : Candle) : Candle := { c with pattern := none }

/-- One iteration of the loop body of `detect_patterns` at index `i`:
it reads positions `i-3 .. i` and rewrites position `i`. -/
def step (cs : List Candle) (i : Nat) : List Candle :=
  match cs[i-3]?, cs[i-2]?, cs[i-1]?, cs[i]? with
  | some p, some a, some b, some c =>
      cs.set i { c with pattern := classifyWindow p a b c }
  | _, _, _, _ => cs

/-- The engine `detect_patterns`: reset every label, then run the loop
`for i in range(3, len(candles))`. -/
def detect_patterns (candles : List Candle) : List Candle :=
  let cs := candles.map resetPattern
  (List.range' 3 (cs.length - 3)).foldl step cs

/-- The label `detect_patterns` computes for position `i`, read off the
original input list: `none` below index 3, otherwise the cascade on the
window `cs[i-3] .. cs[i]`. -/
def labelSpec (cs : List Candle) (i : Nat) : Option String :=
  if i < 3 then none
  else
    match cs[i-3]?, cs[i-2]?, cs[i-1]?, cs[i]? with
    | some p, some a, some b, some c => classifyWindow p a b c
    | _, _, _, _ => none

/-- Normalizes the fields the rules never read: the `index` and the
`pattern`. Two candles with the same image under `stripIdx` agree on all
four prices. -/
def stripIdx (c : Candle) : Candle := { c with index := 0, pattern := none }

/-- Normalizes only the `index` field. -/
def eraseIndex (c : Candle) : Candle := { c with index := 0 }

/-- First bar of the spec's literal indecision fixture. -/
def fixA1 : Candle := ⟨1, 100, 105, 98, 104, none⟩

/-- Second bar of the spec's literal indecision fixture. -/
def fixA2 : Candle := ⟨2, 104, 106, 100, 101, none⟩

/-- Third bar of the spec's literal indecision fixture. -/
def fixA3 : Candle := ⟨3, 101, 105, 97, 101.1, none⟩

/-- The spec's literal 3-bar indecision fixture. -/
def fixtureDoji : List Candle := [fixA1, fixA2, fixA3]

/-- Padding bar placed in front of a window. -/
def msPad : Candle := ⟨0, 1, 1, 1, 1, none⟩

/-- Long bearish first bar of a morning-star window. -/
def msC1 : Candle := ⟨1, 100, 100, 85, 90, none⟩

/-- Small second bar, gapped below the first, of a morning-star window. -/
def msC2 : Candle := ⟨2, 80, 84, 79, 80.5, none⟩

/-- Bullish third bar of a morning-star window that is also a doji. -/
def msC3 : Candle := ⟨3, 96, 99, 90, 96.1, none⟩

/-- A 4-bar sequence whose last bar completes a morning star and is
itself a doji. -/
def msSeq : List Candle := [msPad, msC1, msC2, msC3]

/-- Bearish bar preceding the equal-wick hammer candidate. -/
def hwPrev1 : Candle := ⟨0, 10, 10, 9, 9, none⟩

/-- Second bearish bar preceding the equal-wick hammer candidate. -/
def hwPrev2 : Candle := ⟨1, 9, 9, 8, 8, none⟩

/-- Third bar preceding the equal-wick hammer candidate. -/
def hwPrev3 : Candle := ⟨2, 8, 9, 8, 8.5, none⟩

/-- The spec's boundary bar: upper wick exactly equal to the body. -/
def hwBar : Candle := ⟨3, 102, 103, 95, 102.5, none⟩

/-- Flat padding bar for the tweezer-top counterexample. -/
def twPad1 : Candle := ⟨0, 100, 100, 100, 100, none⟩

/-- Second flat padding bar for the tweezer-top counterexample. -/
def twPad2 : Candle := ⟨1, 100, 100, 100, 100, none⟩

/-- A previous bar with `close = open`: neither bullish nor bearish. -/
def twPrev : Candle := ⟨2, 100, 100.5, 99, 100, none⟩

/-- A current bar whose high matches `twPrev.high` exactly. -/
def twCur : Candle := ⟨3, 100.4, 100.5, 100.2, 100.3, none⟩

/-- A 4-bar sequence where the tweezer-top rule fires although the
previous bar is not bullish. -/
def twSeq : List Candle := [twPad1, twPad2, twPrev, twCur]

/-- A bearish previous bar for the amended tweezer-top claim. -/
def tbPrev : Candle := ⟨0, 5, 6, 4, 4.5, none⟩

/-- A current bar paired with `tbPrev`. -/
def tbCur : Candle := ⟨1, 5, 6, 4, 5.5, none⟩

/-- A single bar used for boundary witnesses. -/
def wOne : Candle := ⟨0, 1, 2, 0, 1, none⟩

/-- A degenerate bar with `high = low`. -/
def flatBar : Candle := ⟨0, 4, 5, 5, 4.5, none⟩

/-- A 4-bar input with indices 0 to 3. -/
def niA : List Candle :=
  [⟨0, 100, 100, 100, 100, none⟩, ⟨1, 100, 100, 100, 100, none⟩,
   ⟨2, 100, 100.5, 99, 100, none⟩, ⟨3, 100.4, 100.5, 100.2, 100.3, none⟩]

/-- The same prices as `niA` with entirely different index values. -/
def niB : List Candle :=
  [⟨7, 100, 100, 100, 100, none⟩, ⟨8, 100, 100, 100, 100, none⟩,
   ⟨9, 100, 100.5, 99, 100, none⟩, ⟨10, 100.4, 100.5, 100.2, 100.3, none⟩]

/-- The open price is unaffected by `stripIdx`. -/
theorem stripIdx_open (c : Candle) : (stripIdx c).open_ = c.open_ := rfl

/-- Resetting the pattern commutes with `stripIdx`. -/
theorem stripIdx_resetPattern (c : Candle) :
    stripIdx (resetPattern c) = stripIdx c := rfl

/-- Erasing the index then resetting the pattern is `stripIdx`. -/
theorem resetPattern_eraseIndex (c : Candle) :
    resetPattern (eraseIndex c) = stripIdx c := rfl

/-- Overwriting the pattern does not change the `stripIdx` image. -/
theorem stripIdx_setPattern (c : Candle) (l : Option String) :
    stripIdx { c with pattern := l } = stripIdx c := rfl

/-- Bearishness only reads prices. -/
theorem is_bearish_strip (c : Candle) :
    (stripIdx c).is_bearish = c.is_bearish := rfl

/-- The body size only reads prices. -/
theorem body_size_strip (c : Candle) :
    (stripIdx c).body_size = c.body_size := rfl

/-- The upper wick only reads prices. -/
theorem upper_wick_strip (c : Candle) :
    (stripIdx c).upper_wick_size = c.upper_wick_size := rfl

/-- The lower wick only reads prices. -/
theorem lower_wick_strip (c : Candle) :
    (stripIdx c).lower_wick_size = c.lower_wick_size := rfl

/-- The doji rule only reads prices. -/
theorem doji_strip (c : Candle) : _is_doji (stripIdx c) = _is_doji c := rfl

/-- The marubozu rule only reads prices. -/
theorem marubozu_strip (c : Candle) :
    _is_marubozu (stripIdx c) = _is_marubozu c := rfl

/-- The bullish engulfing rule only reads prices. -/
theorem bullish_engulfing_strip (c b : Candle) :
    _is_bullish_engulfing (stripIdx c) (stripIdx b)
      = _is_bullish_engulfing c b := rfl

/-- The bearish engulfing rule only reads prices. -/
theorem bearish_engulfing_strip (c b : Candle) :
    _is_bearish_engulfing (stripIdx c) (stripIdx b)
      = _is_bearish_engulfing c b := rfl

/-- The tweezer top rule only reads prices. -/
theorem tweezer_top_strip (c b : Candle) :
    _is_tweezer_top (stripIdx c) (stripIdx b) = _is_tweezer_top c b := rfl

/-- The tweezer bottom rule only reads prices. -/
theorem tweezer_bottom_strip (c b : Candle) :
    _is_tweezer_bottom (stripIdx c) (stripIdx b) = _is_tweezer_bottom c b := rfl

/-- The morning star rule only reads prices. -/
theorem morning_star_strip (a b c : Candle) :
    _is_morning_star (stripIdx a) (stripIdx b) (stripIdx c)
      = _is_morning_star a b c := rfl

/-- The evening star rule only reads prices. -/
theorem evening_star_strip (a b c : Candle) :
    _is_evening_star (stripIdx a) (stripIdx b) (stripIdx c)
      = _is_evening_star a b c := rfl

/-- The three white soldiers rule only reads prices. -/
theorem three_white_soldiers_strip (a b c : Candle) :
    _is_three_white_soldiers (stripIdx a) (stripIdx b) (stripIdx c)
      = _is_three_white_soldiers a b c := rfl

/-- The three black crows rule only reads prices. -/
theorem three_black_crows_strip (a b c : Candle) :
    _is_three_black_crows (stripIdx a) (stripIdx b) (stripIdx c)
      = _is_three_black_crows a b c := rfl

/-- The hammer rule only reads prices. -/
theorem hammer_strip (c p a b : Candle) :
    _is_hammer (stripIdx c) [stripIdx p, stripIdx a, stripIdx b]
      = _is_hammer c [p, a, b] := by
  simp only [_is_hammer, List.length_cons, List.length_nil, List.drop,
    List.countP_cons, List.countP_nil, is_bearish_strip, body_size_strip,
    upper_wick_strip, lower_wick_strip]

/-- The whole cascade only reads prices. -/
theorem classifyWindow_strip (p a b c : Candle) :
    classifyWindow (stripIdx p) (stripIdx a) (stripIdx b) (stripIdx c)
      = classifyWindow p a b c := by
  simp only [classifyWindow, morning_star_strip, evening_star_strip,
    three_white_soldiers_strip, three_black_crows_strip, marubozu_strip,
    bullish_engulfing_strip, bearish_engulfing_strip, tweezer_top_strip,
    tweezer_bottom_strip, doji_strip, hammer_strip]

/-- Candles with equal `stripIdx` images classify identically. -/
theorem classifyWindow_congr {p a b c pb ab bb cb : Candle}
    (hp : stripIdx p = stripIdx pb) (ha : stripIdx a = stripIdx ab)
    (hb : stripIdx b = stripIdx bb) (hc : stripIdx c = stripIdx cb) :
    classifyWindow p a b c = classifyWindow pb ab bb cb := by
  rw [← classifyWindow_strip p a b c, hp, ha, hb, hc, classifyWindow_strip]

/-- One loop iteration preserves the length of the list. -/
theorem step_length (cs : List Candle) (i : Nat) :
    (step cs i).length = cs.length := by
  unfold step
  split
  · exact List.length_set cs i _
  · rfl

/-- One loop iteration at index `i` writes no position other than `i`. -/
theorem step_getElem_ne (cs : List Candle) (i j : Nat) (h : j ≠ i) :
    (step cs i)[j]? = cs[j]? := by
  unfold step
  split
  · exact List.getElem?_set_ne (Ne.symm h)
  · rfl

/-- When the four window lookups succeed, one loop iteration rewrites
position `i` with the cascade's label. -/
theorem step_eq_set {cs : List Candle} {i : Nat} {p a b c : Candle}
    (hp : cs[i-3]? = some p) (ha : cs[i-2]? = some a)
    (hb : cs[i-1]? = some b) (hc : cs[i]? = some c) :
    step cs i = cs.set i { c with pattern := classifyWindow p a b c } := by
  unfold step
  rw [hp, ha, hb, hc]

/-- Past the end of the list one loop iteration does nothing. -/
theorem step_eq_self {cs : List Candle} {i : Nat} (h : cs.length ≤ i) :
    step cs i = cs := by
  have hc : cs[i]? = none := List.getElem?_eq_none h
  rcases h3 : cs[i-3]? with _ | p
  · simp only [step, h3]
  · rcases h2 : cs[i-2]? with _ | a
    · simp only [step, h3, h2]
    · rcases h1 : cs[i-1]? with _ | b
      · simp only [step, h3, h2, h1]
      · simp only [step, h3, h2, h1, hc]

/-- One loop iteration does not change any `stripIdx` image. -/
theorem step_strip (cs : List Candle) (i j : Nat) :
    Option.map stripIdx (step cs i)[j]? = Option.map stripIdx cs[j]? := by
  by_cases hj : j = i
  · subst hj
    unfold step
    split
    · rename_i p a b c hp ha hb hc
      by_cases hlt : j < cs.length
      · rw [List.getElem?_set_self hlt, hc]
        rfl
      · have hnone : cs[j]? = none := List.getElem?_eq_none (by omega)
        rw [hc] at hnone
        exact absurd hnone (by simp)
    · rfl
  · rw [step_getElem_ne cs i j hj]

/-- Folding `step` over `range' k m` labels exactly the positions in
`[k, k + m)` with `labelSpec` read off the original input `cs`, and
leaves every other position of the accumulator unchanged. -/
theorem foldl_step_char (cs : List Candle) :
    ∀ (m k : Nat) (acc : List Candle), 3 ≤ k → acc.length = cs.length →
      (∀ j : Nat, Option.map stripIdx acc[j]? = Option.map stripIdx cs[j]?) →
      (∀ j : Nat, k ≤ j → acc[j]? = Option.map resetPattern cs[j]?) →
      ∀ j : Nat, ((List.range' k m).foldl step acc)[j]? =
        if k ≤ j ∧ j < k + m then
          Option.map (fun c => { c with pattern := labelSpec cs j }) cs[j]?
        else acc[j]? := by
  intro m
  induction m with
  | zero =>
      intro k acc hk hlen hstrip hres j
      simp only [List.range', List.foldl_nil]
      rw [if_neg (by omega)]
  | succ m ih =>
      intro k acc hk hlen hstrip hres j
      rw [List.range'_succ, List.foldl_cons]
      by_cases hkl : cs.length ≤ k
      · rw [step_eq_self (show acc.length ≤ k by omega)]
        have h2 := ih (k+1) acc (by omega) hlen hstrip
          (fun j hj => hres j (by omega)) j
        rw [h2]
        rcases Nat.lt_trichotomy j k with hlt | heq | hgt
        · rw [if_neg (show ¬((k+1) ≤ j ∧ j < (k+1)+m) by omega),
            if_neg (show ¬(k ≤ j ∧ j < k+(m+1)) by omega)]
        · subst heq
          rw [if_neg (show ¬((j+1) ≤ j ∧ j < (j+1)+m) by omega),
            if_pos (show j ≤ j ∧ j < j+(m+1) by omega),
            hres j le_rfl, List.getElem?_eq_none (show cs.length ≤ j by omega)]
          rfl
        · by_cases hcond : j < k + (m+1)
          · rw [if_pos (show (k+1) ≤ j ∧ j < (k+1)+m by omega),
              if_pos (show k ≤ j ∧ j < k+(m+1) by omega)]
          · rw [if_neg (show ¬((k+1) ≤ j ∧ j < (k+1)+m) by omega),
              if_neg (show ¬(k ≤ j ∧ j < k+(m+1)) by omega)]
      · push_neg at hkl
        rcases e0 : cs[k]? with _ | ck
        · exact absurd (List.getElem?_eq_none_iff.mp e0) (by omega)
        rcases e3 : cs[k-3]? with _ | p3
        · exact absurd (List.getElem?_eq_none_iff.mp e3) (by omega)
        rcases e2 : cs[k-2]? with _ | p2
        · exact absurd (List.getElem?_eq_none_iff.mp e2) (by omega)
        rcases e1 : cs[k-1]? with _ | p1
        · exact absurd (List.getElem?_eq_none_iff.mp e1) (by omega)
        have a0 : acc[k]? = some (resetPattern ck) := by
          rw [hres k le_rfl, e0]; rfl
        rcases f3 : acc[k-3]? with _ | q3
        · have hx := hstrip (k-3); rw [f3, e3] at hx; exact absurd hx (by simp)
        rcases f2 : acc[k-2]? with _ | q2
        · have hx := hstrip (k-2); rw [f2, e2] at hx; exact absurd hx (by simp)
        rcases f1 : acc[k-1]? with _ | q1
        · have hx := hstrip (k-1); rw [f1, e1] at hx; exact absurd hx (by simp)
        have hq3 : stripIdx q3 = stripIdx p3 := by
          have hx := hstrip (k-3); rw [f3, e3] at hx; simpa using hx
        have hq2 : stripIdx q2 = stripIdx p2 := by
          have hx := hstrip (k-2); rw [f2, e2] at hx; simpa using hx
        have hq1 : stripIdx q1 = stripIdx p1 := by
          have hx := hstrip (k-1); rw [f1, e1] at hx; simpa using hx
        have hstep : step acc k
            = acc.set k { ck with pattern := labelSpec cs k } := by
          rw [step_eq_set f3 f2 f1 a0]
          have hcw : classifyWindow q3 q2 q1 (resetPattern ck)
              = classifyWindow p3 p2 p1 ck :=
            classifyWindow_congr hq3 hq2 hq1 (stripIdx_resetPattern ck)
          have hl : labelSpec cs k = classifyWindow p3 p2 p1 ck := by
            unfold labelSpec
            rw [if_neg (by omega), e3, e2, e1, e0]
          rw [hcw, hl]
          rfl
        rw [hstep]
        have hlen2 : (acc.set k { ck with pattern := labelSpec cs k }).length
            = cs.length := by
          rw [List.length_set]; exact hlen
        have hstrip2 : ∀ j : Nat,
            Option.map stripIdx
                (acc.set k { ck with pattern := labelSpec cs k })[j]?
              = Option.map stripIdx cs[j]? := by
          intro j
          by_cases hjk : j = k
          · subst hjk
            rw [List.getElem?_set_self (show j < acc.length by omega), e0]
            rfl
          · rw [List.getElem?_set_ne (Ne.symm hjk)]
            exact hstrip j
        have hres2 : ∀ j : Nat, k+1 ≤ j →
            (acc.set k { ck with pattern := labelSpec cs k })[j]?
              = Option.map resetPattern cs[j]? := by
          intro j hj
          rw [List.getElem?_set_ne (show k ≠ j by omega)]
          exact hres j (by omega)
        have h2 := ih (k+1) (acc.set k { ck with pattern := labelSpec cs k })
          (by omega) hlen2 hstrip2 hres2 j
        rw [h2]
        rcases Nat.lt_trichotomy j k with hlt | heq | hgt
        · rw [if_neg (show ¬((k+1) ≤ j ∧ j < (k+1)+m) by omega),
            if_neg (show ¬(k ≤ j ∧ j < k+(m+1)) by omega),
            List.getElem?_set_ne (show k ≠ j by omega)]
        · subst heq
          rw [if_neg (show ¬((j+1) ≤ j ∧ j < (j+1)+m) by omega),
            if_pos (show j ≤ j ∧ j < j+(m+1) by omega),
            List.getElem?_set_self (show j < acc.length by omega), e0]
          rfl
        · by_cases hcond : j < k + (m+1)
          · rw [if_pos (show (k+1) ≤ j ∧ j < (k+1)+m by omega),
              if_pos (show k ≤ j ∧ j < k+(m+1) by omega)]
          · rw [if_neg (show ¬((k+1) ≤ j ∧ j < (k+1)+m) by omega),
              if_neg (show ¬(k ≤ j ∧ j < k+(m+1)) by omega),
              List.getElem?_set_ne (show k ≠ j by omega)]

/-- Pointwise description of `detect_patterns`: position `j` of the
output is position `j` of the input with its pattern replaced by
`labelSpec`. -/
theorem detect_patterns_getElem (cs : List Candle) (j : Nat) :
    (detect_patterns cs)[j]? =
      Option.map (fun c => { c with pattern := labelSpec cs j }) cs[j]? := by
  have hlen : (cs.map resetPattern).length = cs.length := List.length_map cs resetPattern
  have hstrip : ∀ j : Nat,
      Option.map stripIdx (cs.map resetPattern)[j]?
        = Option.map stripIdx cs[j]? := by
    intro j
    rw [List.getElem?_map]
    rcases e : cs[j]? with _ | c
    · rfl
    · rfl
  have hres : ∀ j : Nat, 3 ≤ j →
      (cs.map resetPattern)[j]? = Option.map resetPattern cs[j]? := by
    intro j hj
    rw [List.getElem?_map]
  have h := foldl_step_char cs (cs.length - 3) 3 (cs.map resetPattern)
    le_rfl hlen hstrip hres j
  show ((List.range' 3 ((cs.map resetPattern).length - 3)).foldl step
      (cs.map resetPattern))[j]? = _
  rw [hlen, h]
  by_cases hc : 3 ≤ j ∧ j < 3 + (cs.length - 3)
  · rw [if_pos hc]
  · rw [if_neg hc]
    by_cases hj : j < 3
    · rw [List.getElem?_map]
      rcases e : cs[j]? with _ | c
      · rfl
      · show some (resetPattern c) = some { c with pattern := labelSpec cs j }
        unfold labelSpec
        rw [if_pos hj]
        rfl
    · have hlj : cs.length ≤ j := by omega
      rw [List.getElem?_map, List.getElem?_eq_none hlj]
      rfl

/-- The engine preserves the length of the sequence. -/
theorem detect_patterns_length (cs : List Candle) :
    (detect_patterns cs).length = cs.length := by
  have hfold : ∀ (l : List Nat) (acc : List Candle),
      (l.foldl step acc).length = acc.length := by
    intro l
    induction l with
    | nil => intro acc; rfl
    | cons x xs ihl =>
        intro acc
        rw [List.foldl_cons, ihl, step_length]
  show ((List.range' 3 ((cs.map resetPattern).length - 3)).foldl step
      (cs.map resetPattern)).length = cs.length
  rw [hfold, List.length_map]

/-- The labels produced by `detect_patterns`, position by position. -/
theorem detect_patterns_map_pattern (cs : List Candle) :
    (detect_patterns cs).map Candle.pattern
      = (List.range cs.length).map (labelSpec cs) := by
  apply List.ext_getElem?
  intro j
  rw [List.getElem?_map, List.getElem?_map, detect_patterns_getElem]
  by_cases hj : j < cs.length
  · rw [List.getElem?_range hj]
    rcases e : cs[j]? with _ | c
    · exact absurd (List.getElem?_eq_none_iff.mp e) (by omega)
    · rfl
  · rw [List.getElem?_eq_none (show cs.length ≤ j by omega),
      List.getElem?_eq_none (by simpa using (show cs.length ≤ j by omega))]
    rfl

/-- The engine never changes any `stripIdx` image. -/
theorem detect_patterns_strip (cs : List Candle) (j : Nat) :
    Option.map stripIdx (detect_patterns cs)[j]?
      = Option.map stripIdx cs[j]? := by
  rw [detect_patterns_getElem]
  rcases e : cs[j]? with _ | c
  · rfl
  · rfl

/-- Positionally strip-equal inputs have, at every position, either no
element on both sides or strip-equal elements. -/
theorem lookup_strip_eq {cs cs2 : List Candle}
    (h : ∀ j : Nat, Option.map stripIdx cs[j]? = Option.map stripIdx cs2[j]?)
    (j : Nat) :
    (cs[j]? = none ∧ cs2[j]? = none) ∨
      ∃ a b, cs[j]? = some a ∧ cs2[j]? = some b ∧ stripIdx a = stripIdx b := by
  have hj := h j
  rcases ea : cs[j]? with _ | a
  · rcases eb : cs2[j]? with _ | b
    · exact Or.inl ⟨rfl, rfl⟩
    · rw [ea, eb] at hj
      exact absurd hj (by simp)
  · rcases eb : cs2[j]? with _ | b
    · rw [ea, eb] at hj
      exact absurd hj (by simp)
    · rw [ea, eb] at hj
      exact Or.inr ⟨a, b, rfl, rfl, Option.some.inj hj⟩

/-- The label computed for a position depends only on prices and on the
array position. -/
theorem labelSpec_congr {cs cs2 : List Candle}
    (h : ∀ j : Nat, Option.map stripIdx cs[j]? = Option.map stripIdx cs2[j]?)
    (i : Nat) :
    labelSpec cs i = labelSpec cs2 i := by
  unfold labelSpec
  by_cases hi : i < 3
  · rw [if_pos hi, if_pos hi]
  · rw [if_neg hi, if_neg hi]
    rcases lookup_strip_eq h (i-3) with ⟨e3, f3⟩ | ⟨p, pb, e3, f3, hp⟩
    · rw [e3, f3]
    · rw [e3, f3]
      rcases lookup_strip_eq h (i-2) with ⟨e2, f2⟩ | ⟨a, ab2, e2, f2, ha⟩
      · rw [e2, f2]
      · rw [e2, f2]
        rcases lookup_strip_eq h (i-1) with ⟨e1, f1⟩ | ⟨b, bb2, e1, f1, hb⟩
        · rw [e1, f1]
        · rw [e1, f1]
          rcases lookup_strip_eq h i with ⟨e0, f0⟩ | ⟨c, cb2, e0, f0, hc⟩
          · rw [e0, f0]
          · rw [e0, f0]
            exact classifyWindow_congr hp ha hb hc

/-- On a literal 4-element list, position 3 is labeled by the cascade on
the four elements. -/
theorem labelSpec_four (p a b c : Candle) :
    labelSpec [p, a, b, c] 3 = classifyWindow p a b c := by
  unfold labelSpec
  rw [if_neg (by omega)]
  norm_num [List.getElem?_cons_succ, List.getElem?_cons_zero]

/-- C1: sequences of length 0 to 3 receive no labels at all, and in
every input positions 0, 1 and 2 are always left unlabeled, because the
loop `for i in range(3, len(candles))` starts at index 3. -/
theorem detect_min_lookback :
    (∀ cs : List Candle, cs.length ≤ 3 →
      ∀ c ∈ detect_patterns cs, c.pattern = none) ∧
    (∀ (cs : List Candle) (j : Nat), j < 3 →
      ∀ e : Candle, (detect_patterns cs)[j]? = some e → e.pattern = none) := by
  have key : ∀ (cs : List Candle) (j : Nat), j < 3 →
      ∀ e : Candle, (detect_patterns cs)[j]? = some e → e.pattern = none := by
    intro cs j hj e he
    rw [detect_patterns_getElem] at he
    rcases e2 : cs[j]? with _ | a
    · rw [e2] at he
      exact absurd he (by simp)
    · rw [e2] at he
      cases Option.some.inj he
      show labelSpec cs j = none
      unfold labelSpec
      rw [if_pos hj]
  refine ⟨?_, key⟩
  intro cs hlen c hc
  rcases List.mem_iff_getElem?.mp hc with ⟨j, hj⟩
  have hjl : j < (detect_patterns cs).length := by
    by_contra hge
    rw [List.getElem?_eq_none (by omega)] at hj
    cases hj
  rw [detect_patterns_length] at hjl
  exact key cs j (by omega) c hj

/-- Witness for C1 on the singleton input `[wOne]`. -/
theorem detect_min_lookback_witness : Candle.pattern wOne = none :=
  detect_min_lookback.2 [wOne] 0 (by omega) wOne rfl

/-- C2 counterexample: on the spec's literal 3-bar fixture the engine
labels nothing at all, since `range(3, 3)` is empty; in particular the
third bar does not receive the Doji label. -/
theorem fixture_doji_unlabeled :
    (detect_patterns fixtureDoji).map Candle.pattern = [none, none, none] := rfl

/-- C2 amended: the third fixture bar does satisfy the indecision
predicate, and once the same three bars sit at positions 1 to 3 (any bar
prepended), the engine assigns the Doji label at position 3; the bare
3-bar fixture itself is left unlabeled. -/
theorem fixture_doji_amended (p : Candle) :
    _is_doji fixA3 = true ∧
    (detect_patterns (p :: fixtureDoji)).map Candle.pattern
      = [none, none, none, some "Doji"] := by
  constructor
  · norm_num [_is_doji, fixA3, Candle.body_size, abs]
  · rw [detect_patterns_map_pattern]
    have h4 : (p :: fixtureDoji).length = 4 := rfl
    rw [h4]
    have hr : List.range 4 = [0, 1, 2, 3] := rfl
    rw [hr]
    simp only [List.map_cons, List.map_nil]
    have h0 : labelSpec (p :: fixtureDoji) 0 = none := rfl
    have h1 : labelSpec (p :: fixtureDoji) 1 = none := rfl
    have h2 : labelSpec (p :: fixtureDoji) 2 = none := rfl
    have hfix : (p :: fixtureDoji) = [p, fixA1, fixA2, fixA3] := rfl
    have h3 : labelSpec (p :: fixtureDoji) 3
        = classifyWindow p fixA1 fixA2 fixA3 := by
      rw [hfix, labelSpec_four]
    rw [h0, h1, h2, h3]
    norm_num [classifyWindow, _is_morning_star, _is_evening_star,
      _is_three_white_soldiers, _is_three_black_crows, _is_marubozu,
      _is_bullish_engulfing, _is_bearish_engulfing, _is_tweezer_top,
      _is_tweezer_bottom, _is_doji, fixA1, fixA2, fixA3, Candle.is_bearish,
      Candle.is_bullish, Candle.body_size, abs]

/-- C4: the engine is idempotent: running it on its own output yields
the identical list, because every label is reset before evaluation and
no rule reads labels. -/
theorem detect_patterns_idem (cs : List Candle) :
    detect_patterns (detect_patterns cs) = detect_patterns cs := by
  apply List.ext_getElem?
  intro j
  rw [detect_patterns_getElem (detect_patterns cs) j,
    detect_patterns_getElem cs j]
  have hls : labelSpec (detect_patterns cs) j = labelSpec cs j :=
    labelSpec_congr (detect_patterns_strip cs) j
  rw [hls]
  rcases e : cs[j]? with _ | c
  · rfl
  · rfl

/-- C5: each loop iteration writes no position but the current one, and
every position's final label is the single value of `labelSpec` there:
at most one label per bar per invocation. -/
theorem detect_exclusive :
    (∀ (acc : List Candle) (i j : Nat), j ≠ i → (step acc i)[j]? = acc[j]?) ∧
    (∀ (cs : List Candle) (j : Nat), (detect_patterns cs)[j]?
      = Option.map (fun c => { c with pattern := labelSpec cs j }) cs[j]?) :=
  ⟨fun acc i j h => step_getElem_ne acc i j h,
   fun cs j => detect_patterns_getElem cs j⟩

/-- Witness for C5 on the concrete sequence `twSeq`. -/
theorem detect_exclusive_witness :
    (step twSeq 3)[0]? = twSeq[0]? ∧
    (detect_patterns twSeq)[0]?
      = Option.map (fun c => { c with pattern := labelSpec twSeq 0 })
          twSeq[0]? :=
  ⟨detect_exclusive.1 twSeq 3 0 (by omega), detect_exclusive.2 twSeq 0⟩

/-- C6: divisions are guarded: a bar with `high = low` matches neither
the indecision nor the no-wick rule, whatever its open and close; and
the engine is a total function that returns a same-length list on every
finite input, raising nothing. -/
theorem zero_range_guard :
    (∀ c : Candle, c.high = c.low →
      _is_doji c = false ∧ _is_marubozu c = false) ∧
    (∀ cs : List Candle, (detect_patterns cs).length = cs.length) := by
  constructor
  · intro c h
    constructor
    · unfold _is_doji
      rw [if_pos (by rw [h, sub_self])]
    · unfold _is_marubozu
      rw [if_pos (by rw [h, sub_self])]
  · exact detect_patterns_length


/-- Witness for C6 on the degenerate bar `flatBar`. -/
theorem zero_range_guard_witness :
    _is_doji flatBar = false ∧ _is_marubozu flatBar = false :=
  zero_range_guard.1 flatBar rfl

/-- C9: frame property: the output has the same length, and each output
bar keeps the index and the four prices of the input bar at its
position; only the pattern field is rewritten. -/
theorem detect_patterns_frame (cs : List Candle) :
    (detect_patterns cs).length = cs.length ∧
    (∀ (i : Nat) (a e : Candle), cs[i]? = some a →
      (detect_patterns cs)[i]? = some e →
      e.index = a.index ∧ e.open_ = a.open_ ∧ e.high = a.high ∧
        e.low = a.low ∧ e.close = a.close) := by
  refine ⟨detect_patterns_length cs, ?_⟩
  intro i a e ha he
  rw [detect_patterns_getElem, ha] at he
  cases Option.some.inj he
  exact ⟨rfl, rfl, rfl, rfl, rfl⟩

/-- Witness for C9 at position 0 of the 3-bar fixture. -/
theorem detect_patterns_frame_witness :
    fixA1.index = fixA1.index ∧ fixA1.open_ = fixA1.open_ ∧
      fixA1.high = fixA1.high ∧ fixA1.low = fixA1.low ∧
      fixA1.close = fixA1.close :=
  (detect_patterns_frame fixtureDoji).2 0 fixA1 fixA1 rfl rfl

/-- C3: at any eligible position where one of the four three-bar rules
matches, the bar receives a three-bar label and never the Doji label,
even when the bar itself satisfies the indecision predicate: the cascade
tries the three-bar rules first and the first match wins. -/
theorem three_bar_priority (cs : List Candle) (i : Nat) (h3 : 3 ≤ i)
    (p a b c : Candle)
    (hp : cs[i-3]? = some p) (ha : cs[i-2]? = some a)
    (hb : cs[i-1]? = some b) (hc : cs[i]? = some c)
    (hm : _is_morning_star a b c = true ∨ _is_evening_star a b c = true ∨
      _is_three_white_soldiers a b c = true ∨
      _is_three_black_crows a b c = true)
    (hd : _is_doji c = true) :
    ∃ e : Candle, (detect_patterns cs)[i]? = some e ∧
      (e.pattern = some "Morning Star" ∨ e.pattern = some "Evening Star" ∨
        e.pattern = some "Three White Soldiers" ∨
        e.pattern = some "Three Black Crows") ∧
      e.pattern ≠ some "Doji" := by
  refine ⟨{ c with pattern := labelSpec cs i }, ?_, ?_⟩
  · rw [detect_patterns_getElem, hc]
    rfl
  · have hl : labelSpec cs i = classifyWindow p a b c := by
      unfold labelSpec
      rw [if_neg (by omega), hp, ha, hb, hc]
    show (labelSpec cs i = some "Morning Star" ∨
        labelSpec cs i = some "Evening Star" ∨
        labelSpec cs i = some "Three White Soldiers" ∨
        labelSpec cs i = some "Three Black Crows") ∧
      labelSpec cs i ≠ some "Doji"
    rw [hl]
    unfold classifyWindow
    by_cases h1 : _is_morning_star a b c = true
    · rw [if_pos h1]
      exact ⟨Or.inl rfl, by simp⟩
    · rw [if_neg h1]
      by_cases h2 : _is_evening_star a b c = true
      · rw [if_pos h2]
        exact ⟨Or.inr (Or.inl rfl), by simp⟩
      · rw [if_neg h2]
        by_cases h5 : _is_three_white_soldiers a b c = true
        · rw [if_pos h5]
          exact ⟨Or.inr (Or.inr (Or.inl rfl)), by simp⟩
        · rw [if_neg h5]
          have h6 : _is_three_black_crows a b c = true := by
            rcases hm with h | h | h | h
            · exact absurd h h1
            · exact absurd h h2
            · exact absurd h h5
            · exact h
          rw [if_pos h6]
          exact ⟨Or.inr (Or.inr (Or.inr rfl)), by simp⟩

/-- Witness for C3: in `msSeq`, position 3 completes a morning star and
is itself a doji; the morning-star label wins. -/
theorem three_bar_priority_witness :
    ∃ e : Candle, (detect_patterns msSeq)[3]? = some e ∧
      (e.pattern = some "Morning Star" ∨ e.pattern = some "Evening Star" ∨
        e.pattern = some "Three White Soldiers" ∨
        e.pattern = some "Three Black Crows") ∧
      e.pattern ≠ some "Doji" :=
  three_bar_priority msSeq 3 (by omega) msPad msC1 msC2 msC3 rfl rfl rfl rfl
    (Or.inl (by norm_num [_is_morning_star, msC1, msC2, msC3,
      Candle.is_bearish, Candle.is_bullish, Candle.body_size, abs]))
    (by norm_num [_is_doji, msC3, Candle.body_size, abs])

/-- C7: on an eligible window the hammer rule holds exactly when at
least 2 of the 3 preceding bars are bearish, the lower wick is at least
twice the body, the upper wick is strictly below the body and the body
is positive; a bar whose upper wick equals its body never matches. -/
theorem hammer_rule_char (cur p1 p2 p3 : Candle) :
    (_is_hammer cur [p1, p2, p3] = true ↔
      (2 ≤ [p1, p2, p3].countP (fun c => c.is_bearish) ∧
        cur.body_size * 2 ≤ cur.lower_wick_size ∧
        cur.upper_wick_size < cur.body_size ∧ 0 < cur.body_size)) ∧
    (cur.upper_wick_size = cur.body_size →
      _is_hammer cur [p1, p2, p3] = false) := by
  have hiff : _is_hammer cur [p1, p2, p3] = true ↔
      (2 ≤ [p1, p2, p3].countP (fun c => c.is_bearish) ∧
        cur.body_size * 2 ≤ cur.lower_wick_size ∧
        cur.upper_wick_size < cur.body_size ∧ 0 < cur.body_size) := by
    unfold _is_hammer
    rw [if_neg (by simp)]
    have hdrop : [p1, p2, p3].drop ([p1, p2, p3].length - 3)
        = [p1, p2, p3] := rfl
    rw [hdrop]
    by_cases hcnt : [p1, p2, p3].countP (fun c => c.is_bearish) < 2
    · rw [if_pos hcnt]
      constructor
      · intro h
        exact absurd h (by simp)
      · rintro ⟨h2, _⟩
        omega
    · rw [if_neg hcnt]
      push_neg at hcnt
      simp only [Bool.and_eq_true, decide_eq_true_eq]
      constructor
      · rintro ⟨⟨h1, h2⟩, hb3⟩
        exact ⟨hcnt, h1, h2, hb3⟩
      · rintro ⟨_, h1, h2, hb3⟩
        exact ⟨⟨h1, h2⟩, hb3⟩
  refine ⟨hiff, ?_⟩
  intro heq
  rcases Bool.eq_false_or_eq_true (_is_hammer cur [p1, p2, p3]) with ht | hf
  · have h2 := hiff.mp ht
    rw [heq] at h2
    exact absurd h2.2.2.1 (lt_irrefl _)
  · exact hf

/-- Witness for C7 on the spec's boundary bar, whose upper wick equals
its body. -/
theorem hammer_rule_char_witness :
    _is_hammer hwBar [hwPrev1, hwPrev2, hwPrev3] = false :=
  (hammer_rule_char hwBar hwPrev1 hwPrev2 hwPrev3).2
    (by norm_num [Candle.upper_wick_size, Candle.body_size, hwBar,
      max_def, abs])

/-- C8 counterexample: in `twSeq` the previous bar has `close = open`,
so it is not bullish, yet the engine assigns the tweezer-top label at
position 3: the rule only rejects a bearish previous bar. -/
theorem tweezer_top_not_bullish_counterexample :
    twPrev.is_bullish = false ∧ twSeq[2]? = some twPrev ∧
    (detect_patterns twSeq).map Candle.pattern
      = [none, none, none, some "Tweezer Top"] := by
  refine ⟨by norm_num [Candle.is_bullish, twPrev], rfl, ?_⟩
  rw [detect_patterns_map_pattern]
  have h4 : twSeq.length = 4 := rfl
  rw [h4]
  have hr : List.range 4 = [0, 1, 2, 3] := rfl
  rw [hr]
  simp only [List.map_cons, List.map_nil]
  have h0 : labelSpec twSeq 0 = none := rfl
  have h1 : labelSpec twSeq 1 = none := rfl
  have h2 : labelSpec twSeq 2 = none := rfl
  have htw : twSeq = [twPad1, twPad2, twPrev, twCur] := rfl
  have h3 : labelSpec twSeq 3 = classifyWindow twPad1 twPad2 twPrev twCur := by
    rw [htw, labelSpec_four]
  rw [h0, h1, h2, h3]
  norm_num [classifyWindow, _is_morning_star, _is_evening_star,
    _is_three_white_soldiers, _is_three_black_crows, _is_marubozu,
    _is_bullish_engulfing, _is_bearish_engulfing, _is_tweezer_top,
    _is_tweezer_bottom, _is_doji, twPad1, twPad2, twPrev, twCur,
    Candle.is_bearish, Candle.is_bullish, Candle.body_size, abs]

/-- C8 amended: the tweezer-top rule rejects exactly a bearish previous
bar: whenever the previous bar is bearish the rule never matches,
whatever the two highs; a previous bar with `close = open` may still
match. -/
theorem tweezer_top_rejects_bearish (cur prev : Candle)
    (h : prev.is_bearish = true) : _is_tweezer_top cur prev = false := by
  unfold _is_tweezer_top
  rw [if_pos h]

/-- Witness for the amended C8 on a bearish previous bar. -/
theorem tweezer_top_rejects_bearish_witness :
    _is_tweezer_top tbCur tbPrev = false :=
  tweezer_top_rejects_bearish tbCur tbPrev
    (by norm_num [Candle.is_bearish, tbPrev])

/-- C10: noninterference of the `index` field: two inputs that agree
positionally on everything except each bar's `index` get identical label
assignments at every position. -/
theorem index_noninterference (cs cs2 : List Candle)
    (h : cs.map eraseIndex = cs2.map eraseIndex) :
    (detect_patterns cs).map Candle.pattern
      = (detect_patterns cs2).map Candle.pattern := by
  have hstrip : ∀ j : Nat,
      Option.map stripIdx cs[j]? = Option.map stripIdx cs2[j]? := by
    intro j
    have hj : Option.map eraseIndex cs[j]?
        = Option.map eraseIndex cs2[j]? := by
      rw [← List.getElem?_map eraseIndex cs j,
        ← List.getElem?_map eraseIndex cs2 j, h]
    rcases ea : cs[j]? with _ | a <;> rcases eb : cs2[j]? with _ | b
    · rfl
    · rw [ea, eb] at hj
      exact absurd hj (by simp)
    · rw [ea, eb] at hj
      exact absurd hj (by simp)
    · rw [ea, eb] at hj
      have hab : eraseIndex a = eraseIndex b := Option.some.inj hj
      show some (stripIdx a) = some (stripIdx b)
      rw [← resetPattern_eraseIndex a, ← resetPattern_eraseIndex b, hab]
  have hlen : cs.length = cs2.length := by
    have h2 := congrArg List.length h
    simpa using h2
  rw [detect_patterns_map_pattern, detect_patterns_map_pattern, hlen]
  apply List.map_congr_left
  intro x hx
  exact labelSpec_congr hstrip x

/-- Witness for C10: the same prices under two different index
labelings classify identically. -/
theorem index_noninterference_witness :
    (detect_patterns niA).map Candle.pattern
      = (detect_patterns niB).map Candle.pattern :=
  index_noninterference niA niB rfl
